import Mathlib

/-!
Verification development for the facade-based YouTube player controller
(`script.js`).  The JavaScript source is shallowly embedded: pure helpers
become Lean functions, the timer/event-driven controller state becomes an
explicit record with armed-timer fields, and every interaction with the
external player object is modelled through an abstract `Player` record of
`Option`-valued queries (a failed/throwing query is `none`, mirroring the
`try { ... } catch {}` wrappers in the source).
-/

namespace SIH

/-- JS `x || d` for an optional string, where `undefined` and the empty
string are falsy (`script.js` uses this pattern as `qualityMap[q] || q`,
`getLowestAvailableQuality() || 'small'`, etc.). -/
def jsOr (o : Option String) (d : String) : String :=
  match o with
  | none => d
  | some s => if s = "" then d else s

/-- JS `x || d` for an optional number, where `undefined` and `0` are falsy
(`safeGetCurrentTime() || lastPlaybackTime || 0` in `onPlayerStateChange`). -/
def jsOrNum (o : Option Nat) (d : Nat) : Nat :=
  match o with
  | none => d
  | some n => if n = 0 then d else n

/-- The `qualityMap` object of `script.js`: quality id → human readable text.
Lookup of a missing key yields `none` (JS `undefined`). -/
def qMap (q : String) : Option String :=
  match q with
  | "tiny" => some ("144p")
  | "small" => some ("240p")
  | "medium" => some ("360p")
  | "large" => some ("480p")
  | "hd720" => some ("720p")
  | "hd1080" => some ("1080p")
  | "highres" => some ("1080p+")
  | _ => none

/-- `qualityMap[q] || q` — human readable text with fallback to the raw id. -/
def prettyQ (q : String) : String := jsOr (qMap q) q

/-- `QUALITY_ORDER` of `script.js`: quality precedence from lowest to highest. -/
def QUALITY_ORDER : List String :=
  ["tiny", "small", "medium", "large", "hd720", "hd1080", "highres"]

/-! ### The identifier extractor (`getYouTubeID`)

`script.js` matches the URL against the regex

  `(?:https?:\/\/)?(?:www\.)?(?:youtube\.com\/(?:[^\/\n\s]+\/\S+\/|(?:v|e(?:mbed)?)\/|\S*?[?&]v=)|youtu\.be\/)([a-zA-Z0-9_-]{11})`

and returns capture group 1, or `null` when there is no match.  The regex is
embedded here as an explicit backtracking matcher over `List Char`: each
sub-pattern maps a position (suffix) to the list of candidate continuation
suffixes in JS backtracking priority order, sequencing is `List.flatMap`, and
the overall search tries start positions left to right (JS leftmost match).
-/

/-- The JS `\s` character class (ECMAScript WhiteSpace ∪ LineTerminator). -/
def jsSpaceChars : List Char :=
  [' ', '\t', '\n', '\r', '\x0b', '\x0c',
   '\u00A0', '\u1680', '\u2000', '\u2001', '\u2002', '\u2003', '\u2004',
   '\u2005', '\u2006', '\u2007', '\u2008', '\u2009', '\u200A',
   '\u2028', '\u2029', '\u202F', '\u205F', '\u3000', '\uFEFF']

def jsSpace (c : Char) : Bool := jsSpaceChars.contains c

/-- The capture class `[a-zA-Z0-9_-]`. -/
def idChar (c : Char) : Bool :=
  (decide ('a' ≤ c) && decide (c ≤ 'z')) ||
  (decide ('A' ≤ c) && decide (c ≤ 'Z')) ||
  (decide ('0' ≤ c) && decide (c ≤ '9')) || c == '_' || c == '-'

/-- The class `[^\/\n\s]`. -/
def cls1 (c : Char) : Bool := !(c == '/' || c == '\n' || jsSpace c)

/-- The class `\S`. -/
def notSpace (c : Char) : Bool := !jsSpace c

/-- Literal matcher: consume the pattern `pat` from the front, or fail. -/
def litM : List Char → List Char → Option (List Char)
  | [], s => some s
  | _ :: _, [] => none
  | p :: ps, c :: cs => if c = p then litM ps cs else none

/-- Candidate suffixes after a lazy `p*?`: consuming 0, 1, 2, … characters of
class `p`, shortest first (JS lazy-star expansion order). -/
def lazySplits (p : Char → Bool) : List Char → List (List Char)
  | [] => [[]]
  | c :: cs => (c :: cs) :: (if p c then lazySplits p cs else [])

/-- Candidate suffixes after a greedy `p+`: consuming max, max-1, …, 1
characters of class `p` (JS greedy-plus backtracking order). -/
def greedyPlus (p : Char → Bool) (s : List Char) : List (List Char) :=
  ((lazySplits p s).drop 1).reverse

/-- `[?&]` — one character, `?` or `&`. -/
def ampCands : List Char → List (List Char)
  | [] => []
  | c :: cs => if c = '?' ∨ c = '&' then [cs] else []

/-- Capture `[a-zA-Z0-9_-]{n}` : exactly `n` id-characters. -/
def grabN : Nat → List Char → Option (List Char × List Char)
  | 0, s => some ([], s)
  | _ + 1, [] => none
  | n + 1, c :: cs =>
    if idChar c then (grabN n cs).map (fun pr => (c :: pr.1, pr.2)) else none

/-- Tail of the first inner alternative: `\S+\/` after its leading segment. -/
def alt1Tail (s : List Char) : List (List Char) :=
  (greedyPlus notSpace s).flatMap (fun r => (litM ['/'] r).toList)

/-- First inner alternative `[^\/\n\s]+\/\S+\/`. -/
def alt1Cands (s : List Char) : List (List Char) :=
  (greedyPlus cls1 s).flatMap (fun r1 =>
    ((litM ['/'] r1).toList).flatMap (fun r2 => alt1Tail r2))

/-- Second inner alternative `(?:v|e(?:mbed)?)\/`; JS alternation order is
`v/`, then `embed/`, then `e/`. -/
def alt2Cands (s : List Char) : List (List Char) :=
  (litM ['v', '/'] s).toList ++
  (litM ['e', 'm', 'b', 'e', 'd', '/'] s).toList ++
  (litM ['e', '/'] s).toList

/-- Third inner alternative `\S*?[?&]v=`. -/
def alt3Cands (s : List Char) : List (List Char) :=
  (lazySplits notSpace s).flatMap (fun r1 =>
    (ampCands r1).flatMap (fun r2 => (litM ['v', '='] r2).toList))

/-- The inner alternation after `youtube.com/`. -/
def innerCands (s : List Char) : List (List Char) :=
  alt1Cands s ++ alt2Cands s ++ alt3Cands s

/-- `youtube\.com\/(…)|youtu\.be\/`. -/
def hostCands (s : List Char) : List (List Char) :=
  ((litM ['y', 'o', 'u', 't', 'u', 'b', 'e', '.', 'c', 'o', 'm', '/'] s).toList).flatMap
    innerCands ++
  (litM ['y', 'o', 'u', 't', 'u', '.', 'b', 'e', '/'] s).toList

/-- Optional `(?:www\.)?`. -/
def wwwCands (s : List Char) : List (List Char) :=
  (litM ['w', 'w', 'w', '.'] s).toList ++ [s]

/-- Optional `(?:https?:\/\/)?` — greedy, so `https://` before `http://`
before the empty match. -/
def protoCands (s : List Char) : List (List Char) :=
  (litM ['h', 't', 't', 'p', 's', ':', '/', '/'] s).toList ++
  (litM ['h', 't', 't', 'p', ':', '/', '/'] s).toList ++ [s]

/-- Ordered choice: first candidate on which the continuation succeeds. -/
def firstSome : List α → (α → Option β) → Option β
  | [], _ => none
  | a :: t, f =>
    match f a with
    | some b => some b
    | none => firstSome t f

/-- Try the whole regex at one start position; on success return the capture
group (the 11 id-characters). -/
def matchAt (s : List Char) : Option (List Char) :=
  firstSome (protoCands s) (fun r1 =>
    firstSome (wwwCands r1) (fun r2 =>
      firstSome (hostCands r2) (fun r3 => (grabN 11 r3).map Prod.fst)))

/-- Unanchored search: leftmost start position wins (JS `String.match`). -/
def findMatch : List Char → Option (List Char)
  | [] => matchAt []
  | c :: cs =>
    match matchAt (c :: cs) with
    | some r => some r
    | none => findMatch cs

/-- `getYouTubeID` of `script.js`: the video id, or `none` for JS `null`. -/
def getYouTubeID (url : String) : Option String :=
  (findMatch url.data).map (fun l => ⟨l⟩)

/-! ### The controller state machine

The mutable module-level variables of `script.js` (`player`, `currentVideoId`,
`lowBandwidthMode`, `qualityRetryTimer`, `qualityRetryCount`,
`qualityMonitorTimer`, `lastPlaybackTime`, `pauseDestroyTimer`), the narration
field `#qualityStatus`, and the state of the toggle button are embedded as one
record.  Armed interval/timeout handles become booleans or pending-deadline
fields; the body of each timer callback is a separate function.  Issued
`setPlaybackQuality` commands are logged in `hints` so that "no further hint
is issued" is statable.  The external YouTube player is a record of
`Option`-valued queries; the `Nat` argument indexes the successive read
occasions (0 = a read outside the retry loop, `n ≥ 1` = the read on retry
tick `n`), so that a player whose reported quality changes over time is
expressible. -/

/-- `YT.PlayerState` values. -/
inductive Sig
  | unstarted | ended | playing | paused | buffering | cued
  deriving DecidableEq, Repr

/-- The four staged callbacks of `simulateLowInternetExperience`; `finish`
carries the captured `originalText` of the button. -/
inductive SimStep
  | diag | bandwidth | applying | finish (orig : String)
  deriving DecidableEq, Repr

/-- The external player: `quality n` models `getPlaybackQuality()` at read
occasion `n`, `levels n` models `getAvailableQualityLevels()`, `currentTime`
models `getCurrentTime()`; `none` is a failed/absent query (the `safeGet…`
wrappers return `undefined` on exception). -/
structure Player where
  quality : Nat → Option String
  levels : Nat → Option (List String)
  currentTime : Option Nat

/-- The whole mutable state of `script.js` plus the observable UI fields. -/
structure AppState where
  playerAlive : Bool
  currentVideoId : Option String
  lowBandwidthMode : Bool
  retryArmed : Bool
  retryCount : Nat
  monitorArmed : Bool
  lastPlaybackTime : Nat
  pausePending : Option (Nat × Sig)
  simPending : List (Nat × SimStep)
  narration : String
  buttonLabel : String
  buttonHidden : Bool
  buttonDisabled : Bool
  overlay : Bool
  pauseOverlay : Bool
  facade : Option (Option String × Nat)
  hints : List String
  deriving DecidableEq, Repr

/-- `getLowestAvailableQuality` of `script.js`: `undefined` for a non-array
or empty levels value, else the first `QUALITY_ORDER` entry contained in the
levels, else the last element of the levels. -/
def getLowestAvailableQuality (levels : Option (List String)) : Option String :=
  match levels with
  | none => none
  | some l =>
    if l.isEmpty then none
    else
      match QUALITY_ORDER.find? (fun q => l.contains q) with
      | some q => some q
      | none => l.getLast?

/-- `getLowestAvailableQuality() || 'small'` — the enforcement target. -/
def targetOf (levels : Option (List String)) : String :=
  jsOr (getLowestAvailableQuality levels) ("small")

/-- The target recomputed from the player's levels at read occasion `n`. -/
def targetAt (p : Player) (n : Nat) : String := targetOf (p.levels n)

/-- `enforceLowQuality` up to and including arming the retry interval
(`script.js` lines 181–189): guard on `player`, clear any running retry,
recompute the target, narrate the request, issue one hint, reset the counter,
arm the interval. -/
def enforceStart (p : Player) (st : AppState) : AppState :=
  if !st.playerAlive then st
  else
    let st := { st with retryArmed := false }
    let target := targetAt p 0
    let st := { st with
        narration := "Requesting lower quality (" ++ prettyQ target ++ ")...",
        hints := st.hints ++ [target] }
    { st with retryCount := 0, retryArmed := true }

/-- One tick of the retry interval armed by `enforceLowQuality`
(`script.js` lines 190–206): increment the counter, read the applied quality,
recompute the target; on equality stop; otherwise re-issue the hint and, from
the fifth tick on, stop and narrate the best-effort outcome. -/
def enforceTick (p : Player) (st : AppState) : AppState :=
  let c := st.retryCount + 1
  let q := p.quality c
  let desired := targetAt p c
  if q = some desired then
    { st with retryCount := c, retryArmed := false }
  else
    let st2 := { st with retryCount := c, hints := st.hints ++ [desired] }
    if 5 ≤ c then
      let finalQ := p.quality c
      { st2 with
          retryArmed := false,
          narration := "Targeted " ++ prettyQ desired ++ "; actual is " ++
            jsOr (finalQ.bind qMap) (jsOr finalQ ("Auto")) ++ " (YouTube may adapt)." }
    else st2

/-- Run `n` retry ticks; the interval only fires while it is armed. -/
def runTicks (p : Player) (st : AppState) : Nat → AppState
  | 0 => st
  | n + 1 =>
    let s := runTicks p st n
    if s.retryArmed then enforceTick p s else s

/-- `onPlayerQualityChange` (`script.js` lines 164–175): narrate the new
quality; while in low-bandwidth mode, stop the retry loop if the reported
quality equals the recomputed target.  `avail` is the value
`getAvailableQualityLevels()` returns at this moment. -/
def onPlayerQualityChange (avail : Option (List String)) (newQ : String)
    (st : AppState) : AppState :=
  let st := { st with narration := "Video quality changed to: " ++ jsOr (qMap newQ) ("Auto") }
  if st.lowBandwidthMode then
    if newQ = jsOr (getLowestAvailableQuality avail) ("small") then
      { st with retryArmed := false }
    else st
  else st

/-- One tick of the quality monitor interval (`startQualityMonitor`). -/
def monitorTick (p : Player) (st : AppState) : AppState :=
  if !st.playerAlive then st
  else
    let readable := jsOr ((p.quality 0).bind qMap) (jsOr (p.quality 0) ("Auto"))
    if st.lowBandwidthMode then
      { st with
          narration := "Applied: " ++ readable ++ " (target: " ++ prettyQ (targetAt p 0) ++ ")" }
    else
      { st with narration := "Quality: " ++ readable }

/-- The body of the debounced teardown timeout armed in `onPlayerStateChange`
(`script.js` lines 140–156): capture the playback position with the
`safeGetCurrentTime() || lastPlaybackTime || 0` fallback chain, override it
with 0 when the triggering signal was ENDED, destroy the player, re-render
the facade at the captured offset, unhide the toggle, and clear the retry and
monitor timers. -/
def firePause (p : Player) (st : AppState) : AppState :=
  match st.pausePending with
  | none => st
  | some (_, cause) =>
    let t1 := jsOrNum p.currentTime st.lastPlaybackTime
    let t2 := if cause = Sig.ended then 0 else t1
    { st with
        lastPlaybackTime := t2,
        playerAlive := false,
        pausePending := none,
        facade := some (st.currentVideoId, t2),
        buttonHidden := false,
        retryArmed := false,
        monitorArmed := false }

/-- `onPlayerStateChange` (`script.js` lines 126–158): PLAYING unhides the
toggle, re-runs enforcement in low-bandwidth mode, and cancels the pending
teardown; PAUSED/ENDED/CUED (re)arms the 350 ms debounced teardown. -/
def onStateChange (p : Player) (d : Sig) (now : Nat) (st : AppState) : AppState :=
  if d = Sig.playing then
    let st := { st with buttonHidden := false }
    let st := if st.lowBandwidthMode then enforceStart p st else st
    { st with pauseOverlay := false, pausePending := none }
  else if d = Sig.paused ∨ d = Sig.ended ∨ d = Sig.cued then
    { st with pausePending := some (now + 350, d) }
  else st

/-- Fire the pending teardown timeout if its deadline has been reached by
time `t` (the event queue runs timers in deadline order). -/
def settleAt (p : Player) (t : Nat) (st : AppState) : AppState :=
  match st.pausePending with
  | some (fire, _) => if fire ≤ t then firePause p st else st
  | none => st

/-- Deliver one timestamped player signal: first run a due teardown timer,
then the signal handler. -/
def stepSignal (p : Player) (st : AppState) (ev : Nat × Sig) : AppState :=
  onStateChange p ev.2 ev.1 (settleAt p ev.1 st)

/-- Deliver a time-ordered list of player signals. -/
def runTrace (p : Player) (st : AppState) (evs : List (Nat × Sig)) : AppState :=
  evs.foldl (stepSignal p) st

/-- `toggleLowInternetMode` (`script.js` lines 213–239). -/
def toggleLowInternetMode (p : Player) (st : AppState) : AppState :=
  if !st.lowBandwidthMode then
    let st := { st with lowBandwidthMode := true, buttonLabel := "Disable Low Internet" }
    if st.playerAlive then
      let target := targetAt p 0
      let st := { st with
          narration := "Low-internet mode ON. Targeting " ++ prettyQ target ++ "." }
      let st := enforceStart p st
      { st with monitorArmed := true }
    else
      { st with narration := "Low-internet mode ON. Will apply on playback." }
  else
    let st := { st with lowBandwidthMode := false, retryArmed := false, monitorArmed := false }
    let st := if st.playerAlive then { st with hints := st.hints ++ ["default"] } else st
    let st := { st with buttonLabel := "Simulate Low Internet" }
    if st.playerAlive then
      { st with
          narration := "Low-internet mode OFF. Quality: " ++
            jsOr ((p.quality 0).bind qMap) (jsOr (p.quality 0) ("Auto")) }
    else
      { st with narration := "Low-internet mode OFF." }

/-- The `qualityButton` click listener: toggle, then arm or clear the
monitor according to the new mode. -/
def qualityButtonClick (p : Player) (st : AppState) : AppState :=
  let st := toggleLowInternetMode p st
  if st.lowBandwidthMode then { st with monitorArmed := true }
  else { st with monitorArmed := false }

/-- The staged callbacks of `simulateLowInternetExperience`.  The 700, 1400
and 2100 ms callbacks only write the narration.  The 3000 ms callback's first
statement calls `removeSimulateOverlay()`, a function that is defined nowhere
in `script.js` (only `createSimulateOverlay`, `removePauseOverlay` and
`showPauseOverlay` exist; the definition lives only in the superseded draft),
so that callback throws an uncaught `ReferenceError` before reaching any of
its other statements: it changes no program state — the overlay is never
removed, the final narration is never written, the control is never
re-enabled, and the captured `originalText` label is never restored. -/
def fireSimStep (st : AppState) (s : SimStep) : AppState :=
  match s with
  | SimStep.diag => { st with narration := "Diagnosing network..." }
  | SimStep.bandwidth => { st with narration := "Bandwidth detected: 420 kbps (simulated)" }
  | SimStep.applying => { st with narration := "Applying lower resolution: 240p (simulated)" }
  | SimStep.finish _ => st

/-- `simulateLowInternetExperience` (`script.js` lines 341–369): force real
enforcement off, show the overlay, disable the button, capture its label,
narrate the first stage synchronously, and arm the 700/1400/2100/3000 ms
timeouts.  The timeout handles are not stored anywhere in the source, so the
pending steps are only ever appended, never cancelled. -/
def simulateLowInternetExperience (st : AppState) : AppState :=
  let st := { st with lowBandwidthMode := false, retryArmed := false }
  let st := { st with overlay := true }
  let orig := st.buttonLabel
  let st := { st with buttonDisabled := true, buttonLabel := "Simulating..." }
  { st with
      narration := "Simulating low internet...",
      simPending := st.simPending ++
        [(700, SimStep.diag), (1400, SimStep.bandwidth),
         (2100, SimStep.applying), (3000, SimStep.finish orig)] }

/-- Let time advance to `t` after a simulated-sequence activation with no
other intervening events: every pending staged callback whose deadline has
been reached fires, in order. -/
def runSimUntil (st : AppState) (t : Nat) : AppState :=
  (st.simPending.filter (fun e => decide (e.1 ≤ t))).foldl
    (fun s e => fireSimStep s e.2)
    { st with simPending := st.simPending.filter (fun e => !decide (e.1 ≤ t)) }

/-- The `loadButton` click listener (`script.js` lines 308–327): on a valid
URL, store the id, render the fresh facade, unhide the toggle, clear the
narration, clear the retry and monitor intervals, and reset the mode flag and
the toggle label (in the source the facade render happens first, all within
one synchronous handler).  On an invalid URL, only `alert(...)` runs — the
returned flag records whether the blocking notice was shown. -/
def loadClick (url : String) (st : AppState) : AppState × Bool :=
  match getYouTubeID url with
  | some vid =>
    ({ st with
        currentVideoId := some vid,
        facade := some (some vid, 0),
        buttonHidden := false,
        narration := "",
        retryArmed := false,
        monitorArmed := false,
        lowBandwidthMode := false,
        buttonLabel := "Simulate Low Internet" }, false)
  | none => (st, true)

/-- The module-level initial state of `script.js`. -/
def initState : AppState where
  playerAlive := false
  currentVideoId := none
  lowBandwidthMode := false
  retryArmed := false
  retryCount := 0
  monitorArmed := false
  lastPlaybackTime := 0
  pausePending := none
  simPending := []
  narration := ""
  buttonLabel := "Simulate Low Internet"
  buttonHidden := true
  buttonDisabled := false
  overlay := false
  pauseOverlay := false
  facade := none
  hints := []

/-! ### Helper lemmas -/

/-- `List.find?` returns the match that comes first in the searched list. -/
theorem find?_indexOf_min (p : String → Bool) (l : List String) (b : String)
    (h : l.find? p = some b) :
    ∀ r ∈ l, p r = true → l.indexOf b ≤ l.indexOf r := by
  induction l with
  | nil => simp at h
  | cons a t ih =>
    intro r hr hpr
    by_cases hpa : p a
    · have hb : b = a := by
        have : some a = some b := by simpa [List.find?_cons, hpa] using h
        exact (Option.some.inj this).symm
      subst hb
      simp [List.indexOf_cons_self]
    · have h' : t.find? p = some b := by
        simpa [List.find?_cons, Bool.of_not_eq_true hpa] using h
      by_cases hba : b = a
      · subst hba
        simp [List.indexOf_cons_self]
      · rcases List.mem_cons.mp hr with rfl | hrt
        · exact absurd hpr hpa
        · by_cases hra : r = a
          · subst hra
            exact absurd hpr hpa
          · rw [List.indexOf_cons_ne _ (Ne.symm hba), List.indexOf_cons_ne _ (Ne.symm hra)]
            exact Nat.succ_le_succ (ih h' r hrt hpr)

/-- C4: the enforcement target (`getLowestAvailableQuality() || 'small'`) is
`small` when the reported levels are unreadable or empty, and otherwise — as
soon as the reported set contains at least one recognized `QualityLevel` —
it is the lowest recognized level present, under the fixed order
tiny < small < medium < large < hd720 < hd1080 < highres. -/
theorem c4_enforcement_target :
    (targetOf none = "small" ∧ targetOf (some []) = "small") ∧
    (∀ (l : List String) (q : String), q ∈ QUALITY_ORDER → q ∈ l →
      targetOf (some l) ∈ QUALITY_ORDER ∧ targetOf (some l) ∈ l ∧
      ∀ r ∈ l, r ∈ QUALITY_ORDER →
        QUALITY_ORDER.indexOf (targetOf (some l)) ≤ QUALITY_ORDER.indexOf r) := by
  refine ⟨⟨rfl, rfl⟩, ?_⟩
  intro l q hqO hql
  have hcontains : (fun x => l.contains x) q = true := by
    simpa using hql
  have hfind : (QUALITY_ORDER.find? (fun x => l.contains x)).isSome := by
    rw [List.find?_isSome]
    exact ⟨q, hqO, hcontains⟩
  obtain ⟨q0, hq0⟩ := Option.isSome_iff_exists.mp hfind
  have hq0O : q0 ∈ QUALITY_ORDER := List.mem_of_find?_eq_some hq0
  have hq0l : q0 ∈ l := by
    have := List.find?_some hq0
    simpa using this
  have hlne : l.isEmpty = false := by
    cases l with
    | nil => cases hql
    | cons a t => rfl
  have hq0ne : q0 ≠ "" := by
    intro hq
    rw [hq] at hq0O
    exact absurd hq0O (by decide)
  have hglq : getLowestAvailableQuality (some l) = some q0 := by
    simp only [getLowestAvailableQuality, hlne, Bool.false_eq_true, if_false, hq0]
  have htgt : targetOf (some l) = q0 := by
    simp only [targetOf, hglq, jsOr, if_neg hq0ne]
  rw [htgt]
  refine ⟨hq0O, hq0l, ?_⟩
  intro r hrl hrO
  exact find?_indexOf_min _ QUALITY_ORDER q0 hq0 r hrO (by simpa using hrl)

/-- C4 witness: a concrete reported set containing `medium` and `hd720`. -/
theorem c4_enforcement_target_witness :
    targetOf (some ["hd720", "medium"]) ∈ QUALITY_ORDER ∧
    targetOf (some ["hd720", "medium"]) ∈ ["hd720", "medium"] ∧
    ∀ r ∈ ["hd720", "medium"], r ∈ QUALITY_ORDER →
      QUALITY_ORDER.indexOf (targetOf (some ["hd720", "medium"])) ≤ QUALITY_ORDER.indexOf r :=
  c4_enforcement_target.2 ["hd720", "medium"] "medium" (by decide) (by decide)

/-- C10: a non-empty reported levels list containing none of the seven
recognized names makes `getLowestAvailableQuality` return the *last* element
of the list (not the `small` default), so the enforcement target can lie
outside the QualityLevel vocabulary. -/
theorem c10_unrecognized_levels :
    (∀ (l : List String), l ≠ [] → (∀ q ∈ QUALITY_ORDER, q ∉ l) →
      getLowestAvailableQuality (some l) = l.getLast?) ∧
    targetOf (some ["720p"]) = "720p" ∧ "720p" ∉ QUALITY_ORDER := by
  refine ⟨?_, by decide, by decide⟩
  intro l hne hno
  have hlne : l.isEmpty = false := by
    cases l with
    | nil => exact absurd rfl hne
    | cons a t => rfl
  have hfind : QUALITY_ORDER.find? (fun x => l.contains x) = none := by
    rw [List.find?_eq_none]
    intro x hx
    simpa using hno x hx
  simp only [getLowestAvailableQuality, hlne, Bool.false_eq_true, if_false, hfind]

/-- C10 witness: the concrete unrecognized list `["480p", "720p"]`. -/
theorem c10_unrecognized_levels_witness :
    getLowestAvailableQuality (some ["480p", "720p"]) = ["480p", "720p"].getLast? :=
  c10_unrecognized_levels.1 ["480p", "720p"] (by decide) (by decide)

/-- C9: a load request whose URL fails identifier extraction surfaces the
blocking notice (`alert`) and leaves the whole program state untouched. -/
theorem c9_invalid_url_no_mutation (url : String) (st : AppState)
    (h : getYouTubeID url = none) :
    loadClick url st = (st, true) := by
  simp [loadClick, h]

/-- C9 witness: the concrete invalid input `"not a url"` on the initial state. -/
theorem c9_invalid_url_no_mutation_witness :
    loadClick ("not a url") initState = (initState, true) :=
  c9_invalid_url_no_mutation ("not a url") initState rfl

/-- C7 (amended): loading a new identifier clears the narration, resets the
mode flag and the toggle label, clears the enforcement retry and monitor
timers, and renders the fresh facade — but it leaves the pause-teardown
debounce timer and any pending simulated-sequence timers armed. -/
theorem c7_load_reset (url : String) (st : AppState) (vid : String)
    (h : getYouTubeID url = some vid) :
    ((loadClick url st).1.retryArmed = false) ∧
    ((loadClick url st).1.monitorArmed = false) ∧
    ((loadClick url st).1.narration = "") ∧
    ((loadClick url st).1.lowBandwidthMode = false) ∧
    ((loadClick url st).1.buttonLabel = "Simulate Low Internet") ∧
    ((loadClick url st).1.facade = some (some vid, 0)) ∧
    ((loadClick url st).1.currentVideoId = some vid) ∧
    ((loadClick url st).1.pausePending = st.pausePending) ∧
    ((loadClick url st).1.simPending = st.simPending) := by
  simp [loadClick, h]

/-- C7 witness: loading a concrete valid URL over the initial state. -/
theorem c7_load_reset_witness :
    ((loadClick ("https://youtu.be/dQw4w9WgXcQ") initState).1.retryArmed = false) ∧
    ((loadClick ("https://youtu.be/dQw4w9WgXcQ") initState).1.monitorArmed = false) ∧
    ((loadClick ("https://youtu.be/dQw4w9WgXcQ") initState).1.narration = "") ∧
    ((loadClick ("https://youtu.be/dQw4w9WgXcQ") initState).1.lowBandwidthMode = false) ∧
    ((loadClick ("https://youtu.be/dQw4w9WgXcQ") initState).1.buttonLabel = "Simulate Low Internet") ∧
    ((loadClick ("https://youtu.be/dQw4w9WgXcQ") initState).1.facade = some (some ("dQw4w9WgXcQ"), 0)) ∧
    ((loadClick ("https://youtu.be/dQw4w9WgXcQ") initState).1.currentVideoId = some ("dQw4w9WgXcQ")) ∧
    ((loadClick ("https://youtu.be/dQw4w9WgXcQ") initState).1.pausePending = initState.pausePending) ∧
    ((loadClick ("https://youtu.be/dQw4w9WgXcQ") initState).1.simPending = initState.simPending) :=
  c7_load_reset ("https://youtu.be/dQw4w9WgXcQ") initState ("dQw4w9WgXcQ") rfl

/-- A state in which the 350 ms pause-teardown debounce is pending and the
simulated sequence still has a staged callback armed. -/
def stPendingTimers : AppState :=
  { initState with
      playerAlive := true,
      currentVideoId := some ("dQw4w9WgXcQ"),
      retryArmed := true,
      monitorArmed := true,
      pausePending := some (350, Sig.paused),
      simPending := [(3000, SimStep.finish ("Simulate Low Internet"))] }

/-- C7 counterexample: loading a new identifier while the pause-teardown
debounce timer is pending does NOT clear that timer (nor the staged
simulated-sequence callback), contradicting "all running timers are
cleared". -/
theorem c7_counterexample :
    ((loadClick ("https://youtu.be/aaaaaaaaaaa") stPendingTimers).1.pausePending
        = some (350, Sig.paused)) ∧
    ((loadClick ("https://youtu.be/aaaaaaaaaaa") stPendingTimers).1.simPending
        = [(3000, SimStep.finish ("Simulate Low Internet"))]) ∧
    some (350, Sig.paused) ≠ (none : Option (Nat × Sig)) := by
  refine ⟨rfl, rfl, by decide⟩

/-- C5 (amended): activating the simulated sequence disarms real enforcement
(retry loop cancelled, mode flag reset); but arming real enforcement through
the mode toggle does not touch the simulated sequence's pending staged
callbacks — the source stores no handles for them, so they cannot be
cancelled. -/
theorem c5_simulation_disarms_enforcement :
    (∀ st : AppState, (simulateLowInternetExperience st).retryArmed = false ∧
      (simulateLowInternetExperience st).lowBandwidthMode = false) ∧
    (∀ (p : Player) (st : AppState),
      (toggleLowInternetMode p st).simPending = st.simPending) := by
  constructor
  · intro st
    exact ⟨rfl, rfl⟩
  · intro p st
    cases hlb : st.lowBandwidthMode <;> cases hpa : st.playerAlive <;>
      simp [toggleLowInternetMode, enforceStart, hlb, hpa]

/-- A player whose applied quality never reaches the lowest available level. -/
def pStuck : Player where
  quality := fun _ => some ("hd1080")
  levels := fun _ => some (["small", "hd1080"])
  currentTime := some 10

/-- A state captured mid-way through the simulated sequence, right after the
1400 ms stage fired: the 2100 ms and 3000 ms callbacks are still pending, no
player-side enforcement is armed. -/
def stPendingSim : AppState :=
  { initState with
      playerAlive := true,
      overlay := true,
      buttonDisabled := true,
      buttonLabel := "Simulating...",
      narration := "Bandwidth detected: 420 kbps (simulated)",
      simPending := [(2100, SimStep.applying),
                     (3000, SimStep.finish ("Simulate Low Internet"))] }

/-- C5 counterexample: with the simulated sequence mid-run (its 2100 ms and
3000 ms callbacks still pending), toggling real enforcement on arms the retry
loop while the sequence stays armed, and the sequence's 2100 ms callback —
which only writes the narration, so it runs to completion — then overwrites
the enforcement narration: both subsystems are armed at once and their
narration writes interleave. -/
theorem c5_counterexample :
    ((toggleLowInternetMode pStuck stPendingSim).retryArmed = true) ∧
    ((toggleLowInternetMode pStuck stPendingSim).simPending ≠ []) ∧
    ((toggleLowInternetMode pStuck stPendingSim).narration
        = "Requesting lower quality (240p)...") ∧
    ((runSimUntil (toggleLowInternetMode pStuck stPendingSim) 2100).narration
        = "Applying lower resolution: 240p (simulated)") ∧
    ((runSimUntil (toggleLowInternetMode pStuck stPendingSim) 2100).retryArmed = true) := by
  refine ⟨rfl, by decide, rfl, rfl, rfl⟩

/-- C6: evaluating the embedded code of `simulateLowInternetExperience`.
Activation at time T disables the control at once, and with time advancing
and no other events the narration takes the staged values at exactly T,
T+700 and T+1400 and T+2100 as the claim states; but the claim's T+3000
clause fails: the 3000 ms callback throws a `ReferenceError` on the
undefined `removeSimulateOverlay`, so for every t ≥ 3000 the overlay is
still shown, the control is still disabled, the label is still
"Simulating...", and the narration still holds the 2100 ms text — the
overlay is never removed, the final narration is never set, and the control
is never re-enabled. -/
theorem c6_simulated_sequence (st : AppState) (t : Nat) (h : st.simPending = []) :
    ((runSimUntil (simulateLowInternetExperience st) t).narration =
      if t < 700 then "Simulating low internet..."
      else if t < 1400 then "Diagnosing network..."
      else if t < 2100 then "Bandwidth detected: 420 kbps (simulated)"
      else "Applying lower resolution: 240p (simulated)") ∧
    ((runSimUntil (simulateLowInternetExperience st) t).buttonDisabled = true) ∧
    ((runSimUntil (simulateLowInternetExperience st) t).overlay = true) ∧
    ((runSimUntil (simulateLowInternetExperience st) t).buttonLabel = "Simulating...") ∧
    ((runSimUntil (simulateLowInternetExperience st) t).narration ≠
      "Video quality changed to: 240p (simulated)") := by
  rcases Nat.lt_or_ge t 700 with h1 | h1
  · have n1 : ¬ 700 ≤ t := by omega
    have n2 : ¬ 1400 ≤ t := by omega
    have n3 : ¬ 2100 ≤ t := by omega
    have n4 : ¬ 3000 ≤ t := by omega
    simp [runSimUntil, simulateLowInternetExperience, fireSimStep, h, h1, n1, n2, n3, n4]
  rcases Nat.lt_or_ge t 1400 with h2 | h2
  · have n1 : 700 ≤ t := by omega
    have n2 : ¬ 1400 ≤ t := by omega
    have n3 : ¬ 2100 ≤ t := by omega
    have n4 : ¬ 3000 ≤ t := by omega
    have n6 : ¬ t < 700 := by omega
    simp [runSimUntil, simulateLowInternetExperience, fireSimStep, h, h2, n1, n2, n3, n4, n6]
  rcases Nat.lt_or_ge t 2100 with h3 | h3
  · have n1 : 700 ≤ t := by omega
    have n2 : 1400 ≤ t := by omega
    have n3 : ¬ 2100 ≤ t := by omega
    have n4 : ¬ 3000 ≤ t := by omega
    have n6 : ¬ t < 700 := by omega
    have n7 : ¬ t < 1400 := by omega
    simp [runSimUntil, simulateLowInternetExperience, fireSimStep, h, h3, n1, n2, n3, n4, n6, n7]
  rcases Nat.lt_or_ge t 3000 with h4 | h4
  · have n1 : 700 ≤ t := by omega
    have n2 : 1400 ≤ t := by omega
    have n3 : 2100 ≤ t := by omega
    have n4 : ¬ 3000 ≤ t := by omega
    have n6 : ¬ t < 700 := by omega
    have n7 : ¬ t < 1400 := by omega
    have n8 : ¬ t < 2100 := by omega
    simp [runSimUntil, simulateLowInternetExperience, fireSimStep, h, n1, n2, n3, n4, n6, n7, n8]
  · have n1 : 700 ≤ t := by omega
    have n2 : 1400 ≤ t := by omega
    have n3 : 2100 ≤ t := by omega
    have n4 : 3000 ≤ t := by omega
    have n6 : ¬ t < 700 := by omega
    have n7 : ¬ t < 1400 := by omega
    have n8 : ¬ t < 2100 := by omega
    simp [runSimUntil, simulateLowInternetExperience, fireSimStep, h, n1, n2, n3, n4, n6, n7, n8]

/-- C6 witness: at T+3500 — past the claimed finish — the overlay is still
up, the control is still disabled under the "Simulating..." label, and the
narration still shows the 2100 ms stage, not the claimed final string. -/
theorem c6_simulated_sequence_witness :
    ((runSimUntil (simulateLowInternetExperience initState) 3500).narration =
      "Applying lower resolution: 240p (simulated)") ∧
    ((runSimUntil (simulateLowInternetExperience initState) 3500).buttonDisabled = true) ∧
    ((runSimUntil (simulateLowInternetExperience initState) 3500).overlay = true) ∧
    ((runSimUntil (simulateLowInternetExperience initState) 3500).buttonLabel = "Simulating...") ∧
    ((runSimUntil (simulateLowInternetExperience initState) 3500).narration ≠
      "Video quality changed to: 240p (simulated)") := by
  have h := c6_simulated_sequence initState 3500 rfl
  refine ⟨?_, h.2.1, h.2.2.1, h.2.2.2.1, h.2.2.2.2⟩
  simpa using h.1

/-- C1 (amended): a pause/ended/cued signal received while the player exists
arms the 350 ms debounced teardown.  A playing signal arriving before the
delay elapses cancels it — the player survives and the facade is untouched.
If no playing signal arrives, the teardown commits once the deadline is
reached: the playback position is captured (the source's
`safeGetCurrentTime() || lastPlaybackTime || 0` falls back to the last known
position when the read fails *or returns zero*, and the position is forced
to zero when the triggering signal was ENDED), the player is destroyed, the
retry and monitor timers are cleared, and the facade is re-rendered with the
captured position as resume offset. -/
theorem c1_debounced_teardown (p : Player) (st : AppState) (d : Sig) (t t2 T : Nat)
    (hAlive : st.playerAlive = true) (hPend : st.pausePending = none)
    (hd : d = Sig.paused ∨ d = Sig.ended ∨ d = Sig.cued) :
    (t ≤ t2 → t2 < t + 350 →
      ((runTrace p st [(t, d), (t2, Sig.playing)]).playerAlive = true ∧
       (runTrace p st [(t, d), (t2, Sig.playing)]).pausePending = none ∧
       (runTrace p st [(t, d), (t2, Sig.playing)]).facade = st.facade)) ∧
    (t + 350 ≤ T →
      ((settleAt p T (runTrace p st [(t, d)])).playerAlive = false ∧
       (settleAt p T (runTrace p st [(t, d)])).retryArmed = false ∧
       (settleAt p T (runTrace p st [(t, d)])).monitorArmed = false ∧
       (settleAt p T (runTrace p st [(t, d)])).pausePending = none ∧
       (settleAt p T (runTrace p st [(t, d)])).facade =
         some (st.currentVideoId,
           if d = Sig.ended then 0 else jsOrNum p.currentTime st.lastPlaybackTime))) := by
  constructor
  · intro ha hb
    have nle : ¬ (t + 350 ≤ t2) := by omega
    rcases hd with rfl | rfl | rfl <;>
      cases hlb : st.lowBandwidthMode <;>
        simp [runTrace, stepSignal, settleAt, onStateChange, firePause, enforceStart,
          hPend, hAlive, hlb, nle]
  · intro hT
    rcases hd with rfl | rfl | rfl <;>
      simp [runTrace, stepSignal, settleAt, onStateChange, firePause,
        hPend, hAlive, hT]

/-- A player whose position read succeeds and reports 0 seconds. -/
def pZero : Player where
  quality := fun _ => some ("medium")
  levels := fun _ => none
  currentTime := some 0

/-- A live session whose last known playback position is 42 seconds. -/
def stC1 : AppState :=
  { initState with
      playerAlive := true,
      currentVideoId := some ("dQw4w9WgXcQ"),
      lastPlaybackTime := 42 }

/-- C1 counterexample: the position read *succeeds* and yields 0 (the video
is at its very start), the triggering signal is PAUSED (not ENDED), yet the
committed teardown renders the facade with resume offset 42 — the last known
position — instead of the captured current position 0, because `0` is falsy
in the source's `safeGetCurrentTime() || lastPlaybackTime || 0` chain. -/
theorem c1_counterexample :
    (pZero.currentTime = some 0) ∧
    ((settleAt pZero 350 (runTrace pZero stC1 [(0, Sig.paused)])).facade
        = some (some ("dQw4w9WgXcQ"), 42)) ∧
    (42 ≠ 0) :=
  ⟨rfl, rfl, by decide⟩

/-- C1 witness: a pause at 0 ms cancelled by playing at 100 ms, and a pause
at 0 ms committing at 400 ms. -/
theorem c1_debounced_teardown_witness :
    ((runTrace pZero stC1 [(0, Sig.paused), (100, Sig.playing)]).playerAlive = true ∧
     (runTrace pZero stC1 [(0, Sig.paused), (100, Sig.playing)]).pausePending = none ∧
     (runTrace pZero stC1 [(0, Sig.paused), (100, Sig.playing)]).facade = stC1.facade) ∧
    ((settleAt pZero 400 (runTrace pZero stC1 [(0, Sig.paused)])).playerAlive = false ∧
     (settleAt pZero 400 (runTrace pZero stC1 [(0, Sig.paused)])).retryArmed = false ∧
     (settleAt pZero 400 (runTrace pZero stC1 [(0, Sig.paused)])).monitorArmed = false ∧
     (settleAt pZero 400 (runTrace pZero stC1 [(0, Sig.paused)])).pausePending = none ∧
     (settleAt pZero 400 (runTrace pZero stC1 [(0, Sig.paused)])).facade =
       some (stC1.currentVideoId,
         if Sig.paused = Sig.ended then 0
         else jsOrNum pZero.currentTime stC1.lastPlaybackTime)) := by
  have h := c1_debounced_teardown pZero stC1 Sig.paused 0 100 400 rfl rfl (Or.inl rfl)
  exact ⟨h.1 (by omega) (by omega), h.2 (by omega)⟩

/-- After `enforceLowQuality` arms the interval, the retry loop is armed with
a zero tick counter. -/
theorem enforceStart_armed (p : Player) (st : AppState) (h : st.playerAlive = true) :
    (enforceStart p st).retryArmed = true ∧ (enforceStart p st).retryCount = 0 := by
  simp [enforceStart, h]

/-- A disarmed retry interval never fires again. -/
theorem runTicks_notArmed (p : Player) (st : AppState) (h : st.retryArmed = false) :
    ∀ n, runTicks p st n = st := by
  intro n
  induction n with
  | zero => rfl
  | succ n ih => simp [runTicks, ih, h]

/-- Ticks compose. -/
theorem runTicks_add (p : Player) (st : AppState) (a b : Nat) :
    runTicks p st (a + b) = runTicks p (runTicks p st a) b := by
  induction b with
  | zero => rfl
  | succ b ih =>
    rw [Nat.add_succ]
    simp [runTicks, ih]

/-- Unfold one retry tick. -/
theorem runTicks_succ (p : Player) (st : AppState) (n : Nat) :
    runTicks p st (n + 1) =
      if (runTicks p st n).retryArmed then enforceTick p (runTicks p st n)
      else runTicks p st n := rfl

/-- While the applied quality keeps missing the recomputed target and the
ceiling is not yet reached, each tick keeps the loop armed and advances the
counter. -/
theorem runTicks_noconv (p : Player) (st : AppState)
    (hA : st.retryArmed = true) (hC : st.retryCount = 0) :
    ∀ k, k ≤ 4 → (∀ j, 1 ≤ j → j ≤ k → p.quality j ≠ some (targetAt p j)) →
      (runTicks p st k).retryArmed = true ∧ (runTicks p st k).retryCount = k := by
  intro k
  induction k with
  | zero => intro _ _; exact ⟨hA, hC⟩
  | succ k ih =>
    intro hk4 hj
    obtain ⟨ihA, ihC⟩ := ih (by omega) (fun j h1 h2 => hj j h1 (by omega))
    have hq : p.quality (k + 1) ≠ some (targetAt p (k + 1)) := hj (k + 1) (by omega) (by omega)
    have h5 : ¬ (5 ≤ k + 1) := by omega
    simp [runTicks, ihA, ihC, enforceTick, hq, h5]

/-- C2: against a player whose applied quality never equals the recomputed
target, the retry loop is still armed after ticks 0–4, stops exactly on the
fifth tick, sets the terminal best-effort narration reporting requested vs
actual level, and afterwards nothing remains armed: further ticks change
nothing. -/
theorem c2_retry_ceiling (p : Player) (st : AppState)
    (hAlive : st.playerAlive = true)
    (h : ∀ n, 1 ≤ n → n ≤ 5 → p.quality n ≠ some (targetAt p n)) :
    (∀ j, j ≤ 4 → (runTicks p (enforceStart p st) j).retryArmed = true) ∧
    ((runTicks p (enforceStart p st) 5).retryArmed = false) ∧
    ((runTicks p (enforceStart p st) 5).narration =
      "Targeted " ++ prettyQ (targetAt p 5) ++ "; actual is " ++
        jsOr ((p.quality 5).bind qMap) (jsOr (p.quality 5) ("Auto")) ++
        " (YouTube may adapt).") ∧
    (∀ n, 5 ≤ n → runTicks p (enforceStart p st) n = runTicks p (enforceStart p st) 5) := by
  obtain ⟨hA, hC⟩ := enforceStart_armed p st hAlive
  have inv := runTicks_noconv p (enforceStart p st) hA hC
  have h4 := inv 4 (by omega) (fun j h1 h2 => h j h1 (by omega))
  obtain ⟨s4, hs4⟩ : ∃ s, runTicks p (enforceStart p st) 4 = s := ⟨_, rfl⟩
  have hA4 : s4.retryArmed = true := hs4 ▸ h4.1
  have hC4 : s4.retryCount = 4 := hs4 ▸ h4.2
  have hq5 : p.quality (4 + 1) ≠ some (targetAt p (4 + 1)) := h 5 (by omega) (by omega)
  have hstep : runTicks p (enforceStart p st) 5 = enforceTick p s4 := by
    rw [show (5 : Nat) = 4 + 1 from rfl, runTicks_succ, hs4, if_pos hA4]
  have harm5 : (runTicks p (enforceStart p st) 5).retryArmed = false := by
    rw [hstep]
    simp [enforceTick, hC4, hq5]
  refine ⟨?_, harm5, ?_, ?_⟩
  · intro j hj
    exact (inv j (by omega) (fun i hi1 hi2 => h i hi1 (by omega))).1
  · rw [hstep]
    simp [enforceTick, hC4, hq5]
  · intro n hn
    obtain ⟨m, rfl⟩ := Nat.exists_eq_add_of_le hn
    rw [runTicks_add]
    exact runTicks_notArmed p _ harm5 m

/-- A live session, ready for enforcement. -/
def stLive : AppState :=
  { initState with playerAlive := true, currentVideoId := some ("dQw4w9WgXcQ") }

/-- C2 witness: `pStuck` reports `["small", "hd1080"]` but stays at
`hd1080`, so the target `small` is never reached. -/
theorem c2_retry_ceiling_witness :
    (∀ j, j ≤ 4 → (runTicks pStuck (enforceStart pStuck stLive) j).retryArmed = true) ∧
    ((runTicks pStuck (enforceStart pStuck stLive) 5).retryArmed = false) ∧
    ((runTicks pStuck (enforceStart pStuck stLive) 5).narration =
      "Targeted " ++ prettyQ (targetAt pStuck 5) ++ "; actual is " ++
        jsOr ((pStuck.quality 5).bind qMap) (jsOr (pStuck.quality 5) ("Auto")) ++
        " (YouTube may adapt).") ∧
    (∀ n, 5 ≤ n → runTicks pStuck (enforceStart pStuck stLive) n
        = runTicks pStuck (enforceStart pStuck stLive) 5) :=
  c2_retry_ceiling pStuck stLive rfl (fun n h1 h2 => by
    interval_cases n
    all_goals decide)

/-- C3: whenever the applied quality equals the recomputed target — first
observed on retry tick `k` within the ceiling, or reported out-of-band
through the quality-change event while enforcing in low-bandwidth mode — the
retry loop stops at that point, the stopping observation itself issues no
hint, and no further tick changes anything (in particular no further
quality-hint command is ever issued). -/
theorem c3_convergence_stops (p : Player) (st : AppState) (k : Nat)
    (hAlive : st.playerAlive = true) (hk1 : 1 ≤ k) (hk5 : k ≤ 5)
    (hbefore : ∀ j, 1 ≤ j → j < k → p.quality j ≠ some (targetAt p j))
    (hconv : p.quality k = some (targetAt p k)) :
    ((runTicks p (enforceStart p st) k).retryArmed = false) ∧
    ((runTicks p (enforceStart p st) k).hints =
      (runTicks p (enforceStart p st) (k - 1)).hints) ∧
    (∀ n, k ≤ n → runTicks p (enforceStart p st) n = runTicks p (enforceStart p st) k) ∧
    (∀ (st2 : AppState) (avail : Option (List String)) (newQ : String),
      st2.lowBandwidthMode = true →
      newQ = jsOr (getLowestAvailableQuality avail) ("small") →
      (onPlayerQualityChange avail newQ st2).retryArmed = false ∧
      (onPlayerQualityChange avail newQ st2).hints = st2.hints) := by
  obtain ⟨hA, hC⟩ := enforceStart_armed p st hAlive
  have hprev := runTicks_noconv p (enforceStart p st) hA hC (k - 1) (by omega)
    (fun j h1 h2 => hbefore j h1 (by omega))
  have hconv' : p.quality ((k - 1) + 1) = some (targetAt p ((k - 1) + 1)) := by
    have hkeq : (k - 1) + 1 = k := by omega
    rw [hkeq]
    exact hconv
  obtain ⟨sk, hsk⟩ : ∃ s, runTicks p (enforceStart p st) (k - 1) = s := ⟨_, rfl⟩
  have hAk : sk.retryArmed = true := hsk ▸ hprev.1
  have hCk : sk.retryCount = k - 1 := hsk ▸ hprev.2
  have hstep : (runTicks p (enforceStart p st) k).retryArmed = false ∧
      (runTicks p (enforceStart p st) k).hints =
        (runTicks p (enforceStart p st) (k - 1)).hints := by
    have hkeq : k = (k - 1) + 1 := by omega
    rw [hkeq, runTicks_succ, hsk, if_pos hAk]
    have hconv2 : p.quality (sk.retryCount + 1) = some (targetAt p (sk.retryCount + 1)) := by
      rw [hCk]
      exact hconv'
    simp [enforceTick, hconv2, hsk]
  refine ⟨hstep.1, hstep.2, ?_, ?_⟩
  · intro n hn
    obtain ⟨m, rfl⟩ := Nat.exists_eq_add_of_le hn
    rw [runTicks_add]
    exact runTicks_notArmed p _ hstep.1 m
  · intro st2 avail newQ hmode hnq
    exact ⟨by simp [onPlayerQualityChange, hmode, hnq],
      by simp [onPlayerQualityChange, hmode, hnq]⟩

/-- A player that converges to the lowest level on the second retry tick. -/
def pConverge : Player where
  quality := fun n => if n = 2 then some ("small") else some ("hd720")
  levels := fun _ => none
  currentTime := none

/-- C3 witness: convergence observed on tick 2. -/
theorem c3_convergence_stops_witness :
    ((runTicks pConverge (enforceStart pConverge stLive) 2).retryArmed = false) ∧
    ((runTicks pConverge (enforceStart pConverge stLive) 2).hints =
      (runTicks pConverge (enforceStart pConverge stLive) (2 - 1)).hints) ∧
    (∀ n, 2 ≤ n → runTicks pConverge (enforceStart pConverge stLive) n
        = runTicks pConverge (enforceStart pConverge stLive) 2) ∧
    (∀ (st2 : AppState) (avail : Option (List String)) (newQ : String),
      st2.lowBandwidthMode = true →
      newQ = jsOr (getLowestAvailableQuality avail) ("small") →
      (onPlayerQualityChange avail newQ st2).retryArmed = false ∧
      (onPlayerQualityChange avail newQ st2).hints = st2.hints) :=
  c3_convergence_stops pConverge stLive 2 rfl (by omega) (by omega)
    (fun j h1 h2 => by
      interval_cases j
      all_goals decide) (by decide)


/-- Every lazy-star candidate is a suffix of the input. -/
theorem lazySplits_suffix (p : Char → Bool) :
    ∀ (s : List Char), ∀ r ∈ lazySplits p s, r <:+ s := by
  intro s
  induction s with
  | nil =>
    intro r hr
    simp [lazySplits] at hr
    exact hr ▸ List.suffix_refl []
  | cons c cs ih =>
    intro r hr
    simp only [lazySplits] at hr
    rcases List.mem_cons.mp hr with rfl | hr2
    · exact List.suffix_refl _
    · by_cases hp : p c = true
      · rw [if_pos hp] at hr2
        exact (ih r hr2).trans (List.suffix_cons c cs)
      · rw [if_neg hp] at hr2
        cases hr2

/-- Every greedy-plus candidate is a suffix of the input. -/
theorem greedyPlus_suffix (p : Char → Bool) (s : List Char) :
    ∀ r ∈ greedyPlus p s, r <:+ s := by
  intro r hr
  rw [greedyPlus, List.mem_reverse] at hr
  exact lazySplits_suffix p s r (List.drop_subset _ _ hr)

/-- Matching a literal slash fails on any suffix of a slash-free string. -/
theorem litM_slash_none (s r : List Char) (hns : '/' ∉ s) (hsuf : r <:+ s) :
    litM ['/'] r = none := by
  cases r with
  | nil => rfl
  | cons c t =>
    have hcs : c ∈ s := hsuf.subset (List.mem_cons_self c t)
    have hc : ¬ (c = '/') := fun h => hns (h ▸ hcs)
    simp [litM, hc]

/-- The tail `\\S+\\/` of the first inner alternative yields no candidate on a
slash-free remainder. -/
theorem alt1Tail_nil (s : List Char) (hns : '/' ∉ s) : alt1Tail s = [] := by
  rw [alt1Tail, List.flatMap_eq_nil_iff]
  intro r hr
  rw [litM_slash_none s r hns (greedyPlus_suffix _ _ r hr)]
  rfl

/-- The first inner alternative `[^\\/\\n\\s]+\\/\\S+\\/` yields no candidate on a
slash-free remainder. -/
theorem alt1Cands_nil (s : List Char) (hns : '/' ∉ s) : alt1Cands s = [] := by
  rw [alt1Cands, List.flatMap_eq_nil_iff]
  intro r hr
  rw [litM_slash_none s r hns (greedyPlus_suffix _ _ r hr)]
  rfl

/-- The capture group consumes exactly an id-character block of its length. -/
theorem grabN_append (l r : List Char) (hc : ∀ c ∈ l, idChar c = true) :
    grabN l.length (l ++ r) = some (l, r) := by
  induction l with
  | nil => rfl
  | cons c t ih =>
    have hcc : idChar c = true := hc c (List.mem_cons_self c t)
    simp [grabN, hcc, ih (fun x hx => hc x (List.mem_cons_of_mem _ hx))]

/-- Id-characters are never slashes. -/
theorem no_slash_of_idchars (l : List Char) (hc : ∀ c ∈ l, idChar c = true) :
    '/' ∉ l := fun hmem => absurd (hc _ hmem) (by decide)

/-- The regex, tried at the start of a canonical watch link, captures the
11-character identifier (for any slash-free trailing query part). -/
theorem matchAt_watch (idd tail : List Char) (h11 : idd.length = 11)
    (hc : ∀ c ∈ idd, idChar c = true) (hnos : '/' ∉ (idd ++ tail)) :
    matchAt ('h' :: 't' :: 't' :: 'p' :: 's' :: ':' :: '/' :: '/' :: 'w' :: 'w' :: 'w' :: '.' :: 'y' :: 'o' :: 'u' :: 't' :: 'u' :: 'b' :: 'e' :: '.' :: 'c' :: 'o' :: 'm' :: '/' :: 'w' :: 'a' :: 't' :: 'c' :: 'h' :: '?' :: 'v' :: '=' :: (idd ++ tail)) = some idd := by
  have h1 : alt1Cands ('w' :: 'a' :: 't' :: 'c' :: 'h' :: '?' :: 'v' :: '=' :: (idd ++ tail)) = [] := by
    apply alt1Cands_nil
    intro h
    simp only [List.mem_cons] at h
    rcases h with h | h | h | h | h | h | h | h | h
    all_goals first
      | exact absurd h (by decide)
      | exact hnos h
  have h2 : grabN 11 (idd ++ tail) = some (idd, tail) := by
    rw [← h11]
    exact grabN_append idd tail hc
  simp [matchAt, protoCands, wwwCands, hostCands, innerCands, alt2Cands, alt3Cands,
    litM, lazySplits, ampCands, firstSome, h1, h2]


/-- The regex, tried at the start of a short link, captures the identifier. -/
theorem matchAt_short (idd tail : List Char) (h11 : idd.length = 11)
    (hc : ∀ c ∈ idd, idChar c = true) :
    matchAt ('h' :: 't' :: 't' :: 'p' :: 's' :: ':' :: '/' :: '/' :: 'y' :: 'o' :: 'u' :: 't' :: 'u' :: '.' :: 'b' :: 'e' :: '/' :: (idd ++ tail)) = some idd := by
  have h2 : grabN 11 (idd ++ tail) = some (idd, tail) := by
    rw [← h11]
    exact grabN_append idd tail hc
  simp +decide [matchAt, protoCands, wwwCands, hostCands, innerCands, alt2Cands,
    alt3Cands, litM, lazySplits, ampCands, firstSome, h2]

/-- The regex, tried at the start of an embed link, captures the identifier
(for any slash-free trailing part). -/
theorem matchAt_embed (idd tail : List Char) (h11 : idd.length = 11)
    (hc : ∀ c ∈ idd, idChar c = true) (hnos : '/' ∉ (idd ++ tail)) :
    matchAt ('h' :: 't' :: 't' :: 'p' :: 's' :: ':' :: '/' :: '/' :: 'w' :: 'w' :: 'w' :: '.' :: 'y' :: 'o' :: 'u' :: 't' :: 'u' :: 'b' :: 'e' :: '.' :: 'c' :: 'o' :: 'm' :: '/' :: 'e' :: 'm' :: 'b' :: 'e' :: 'd' :: '/' :: (idd ++ tail)) = some idd := by
  have h1t : alt1Tail (idd ++ tail) = [] := alt1Tail_nil _ hnos
  have h2 : grabN 11 (idd ++ tail) = some (idd, tail) := by
    rw [← h11]
    exact grabN_append idd tail hc
  simp +decide [matchAt, protoCands, wwwCands, hostCands, innerCands, alt1Cands,
    alt2Cands, alt3Cands, litM, lazySplits, greedyPlus, ampCands, firstSome, h1t, h2]

/-- One step of the leftmost-match search. -/
theorem findMatch_cons (c : Char) (cs : List Char) :
    findMatch (c :: cs) =
      match matchAt (c :: cs) with
      | some r => some r
      | none => findMatch cs := rfl

/-- `getYouTubeID` on a canonical watch link. -/
theorem getID_watch (id : String) (h11 : id.length = 11)
    (hc : ∀ c ∈ id.data, idChar c = true) :
    getYouTubeID ("https://www.youtube.com/watch?v=" ++ id) = some id := by
  have hm := matchAt_watch id.data [] h11 hc
    (by simpa using no_slash_of_idchars id.data hc)
  rw [List.append_nil] at hm
  have key : findMatch (("https://www.youtube.com/watch?v=" ++ id).data) = some id.data := by
    show findMatch ('h' :: 't' :: 't' :: 'p' :: 's' :: ':' :: '/' :: '/' :: 'w' :: 'w' :: 'w' :: '.' :: 'y' :: 'o' :: 'u' :: 't' :: 'u' :: 'b' :: 'e' :: '.' :: 'c' :: 'o' :: 'm' :: '/' :: 'w' :: 'a' :: 't' :: 'c' :: 'h' :: '?' :: 'v' :: '=' :: id.data) = some id.data
    rw [findMatch_cons, hm]
  unfold getYouTubeID
  rw [key]
  rfl

/-- `getYouTubeID` on a short link. -/
theorem getID_short (id : String) (h11 : id.length = 11)
    (hc : ∀ c ∈ id.data, idChar c = true) :
    getYouTubeID ("https://youtu.be/" ++ id) = some id := by
  have hm := matchAt_short id.data [] h11 hc
  rw [List.append_nil] at hm
  have key : findMatch (("https://youtu.be/" ++ id).data) = some id.data := by
    show findMatch ('h' :: 't' :: 't' :: 'p' :: 's' :: ':' :: '/' :: '/' :: 'y' :: 'o' :: 'u' :: 't' :: 'u' :: '.' :: 'b' :: 'e' :: '/' :: id.data) = some id.data
    rw [findMatch_cons, hm]
  unfold getYouTubeID
  rw [key]
  rfl

/-- `getYouTubeID` on an embed link. -/
theorem getID_embed (id : String) (h11 : id.length = 11)
    (hc : ∀ c ∈ id.data, idChar c = true) :
    getYouTubeID ("https://www.youtube.com/embed/" ++ id) = some id := by
  have hm := matchAt_embed id.data [] h11 hc
    (by simpa using no_slash_of_idchars id.data hc)
  rw [List.append_nil] at hm
  have key : findMatch (("https://www.youtube.com/embed/" ++ id).data) = some id.data := by
    show findMatch ('h' :: 't' :: 't' :: 'p' :: 's' :: ':' :: '/' :: '/' :: 'w' :: 'w' :: 'w' :: '.' :: 'y' :: 'o' :: 'u' :: 't' :: 'u' :: 'b' :: 'e' :: '.' :: 'c' :: 'o' :: 'm' :: '/' :: 'e' :: 'm' :: 'b' :: 'e' :: 'd' :: '/' :: id.data) = some id.data
    rw [findMatch_cons, hm]
  unfold getYouTubeID
  rw [key]
  rfl

/-- Concatenation preserves slash-freedom. -/
theorem no_slash_concat (a b : List Char) (ha : '/' ∉ a) (hb : '/' ∉ b) :
    '/' ∉ (a ++ b) := by
  intro h
  rcases List.mem_append.mp h with h | h
  exacts [ha h, hb h]

/-- `getYouTubeID` on a watch link with an extra query parameter. -/
theorem getID_watch_params (id : String) (h11 : id.length = 11)
    (hc : ∀ c ∈ id.data, idChar c = true) :
    getYouTubeID ("https://www.youtube.com/watch?v=" ++ id ++ "&t=30s") = some id := by
  have hm := matchAt_watch id.data ['&', 't', '=', '3', '0', 's'] h11 hc
    (no_slash_concat _ _ (no_slash_of_idchars id.data hc) (by decide))
  have key : findMatch (("https://www.youtube.com/watch?v=" ++ id ++ "&t=30s").data)
      = some id.data := by
    show findMatch ('h' :: 't' :: 't' :: 'p' :: 's' :: ':' :: '/' :: '/' :: 'w' :: 'w' :: 'w' :: '.' :: 'y' :: 'o' :: 'u' :: 't' :: 'u' :: 'b' :: 'e' :: '.' :: 'c' :: 'o' :: 'm' :: '/' :: 'w' :: 'a' :: 't' :: 'c' :: 'h' :: '?' :: 'v' :: '=' :: (id.data ++ ('&' :: 't' :: '=' :: '3' :: '0' :: 's' :: []))) = some id.data
    rw [findMatch_cons, hm]
  unfold getYouTubeID
  rw [key]
  rfl


/-- C8: the identifier extractor is total (a Lean function never throws); on
every canonical watch link, short link, embed link, and watch link with an
extra query parameter built from an 11-character identifier it returns that
identifier, and on non-matching strings it returns the not-found result
(`none`). -/
theorem c8_extractor :
    (∀ id : String, id.length = 11 → (∀ c ∈ id.data, idChar c = true) →
      getYouTubeID ("https://www.youtube.com/watch?v=" ++ id) = some id ∧
      getYouTubeID ("https://youtu.be/" ++ id) = some id ∧
      getYouTubeID ("https://www.youtube.com/embed/" ++ id) = some id ∧
      getYouTubeID ("https://www.youtube.com/watch?v=" ++ id ++ "&t=30s") = some id) ∧
    (getYouTubeID ("") = none ∧
     getYouTubeID ("hello world") = none ∧
     getYouTubeID ("https://example.com/watch?v=dQw4w9WgXcQ") = none ∧
     getYouTubeID ("https://www.youtube.com/watch?v=tooShort") = none) :=
  ⟨fun id h11 hc =>
    ⟨getID_watch id h11 hc, getID_short id h11 hc, getID_embed id h11 hc,
     getID_watch_params id h11 hc⟩,
   rfl, rfl, rfl, rfl⟩

/-- C8 witness: the four accepted shapes instantiated with `dQw4w9WgXcQ`. -/
theorem c8_extractor_witness :
    getYouTubeID ("https://www.youtube.com/watch?v=" ++ "dQw4w9WgXcQ") = some ("dQw4w9WgXcQ") ∧
    getYouTubeID ("https://youtu.be/" ++ "dQw4w9WgXcQ") = some ("dQw4w9WgXcQ") ∧
    getYouTubeID ("https://www.youtube.com/embed/" ++ "dQw4w9WgXcQ") = some ("dQw4w9WgXcQ") ∧
    getYouTubeID ("https://www.youtube.com/watch?v=" ++ "dQw4w9WgXcQ" ++ "&t=30s")
      = some ("dQw4w9WgXcQ") :=
  c8_extractor.1 ("dQw4w9WgXcQ") (by decide) (by decide)

end SIH
